import Mathlib

/-
Verification of the CheckMerge LLVM analysis passes (DependenceCollector,
SourceVariableMapper, CheckMergePrinter) against their specification.

The C++ sources are shallowly embedded: instructions and blocks become
records whose fields capture exactly the observations the code makes of
LLVM objects (memory-access flags, opcode name, debug location, identity),
the memory-dependence analysis becomes an oracle record of query functions,
and the collector and printer become Lean functions over these.  Pointer
identity is modelled by an `id` field; nullable pointers by `Option`;
the `assert` in `CheckMergePrinter::formatIdentifier(Instruction&)` by an
`Option` result that is `none` exactly when the assertion would fire.
-/

namespace CheckMerge

/-- Model of `llvm::Instruction` restricted to the observations the
CheckMerge passes make: pointer identity (`id`), opcode name,
`mayReadFromMemory`, `mayWriteToMemory`, whether `CallSite(inst)`
converts to true (call/invoke), and the instruction debug location
(`none` models a null `DebugLoc`). -/
structure Instr where
  id : Nat
  opcode : String
  mayRead : Bool
  mayWrite : Bool
  isCall : Bool
  debugLoc : Option (Nat × Nat)
deriving DecidableEq

/-- Model of `Instruction::mayReadOrWriteMemory()`. -/
def Instr.mayReadOrWriteMemory (i : Instr) : Bool :=
  i.mayRead || i.mayWrite

/-- Model of `llvm::BasicBlock` identity as used in dependency pairs:
pointer identity plus the block name used by `formatIdentifier(BasicBlock&)`. -/
structure BlockRef where
  id : Nat
  name : String
deriving DecidableEq

/-- Types of dependencies, from `DependenceCollector.h`. -/
inductive DependencyType where
  | Clobber
  | Def
  | NonFuncLocal
  | Unknown
deriving DecidableEq

/-- Model of `Dependency = PointerIntPair<const Instruction *, 2, DependencyType>`:
a nullable instruction pointer (`getPointer`) paired with a type (`getInt`). -/
structure Dependency where
  ptr : Option Instr
  typ : DependencyType
deriving DecidableEq

/-- Model of `DependencyPair = std::pair<Dependency, const BasicBlock *>`. -/
abbrev DependencyPair := Dependency × Option BlockRef

/-- Model of `DependencySet = SmallSetVector<DependencyPair, 4>`: an
insertion-ordered list without duplicates. -/
abbrev DependencySet := List DependencyPair

/-- Model of `SmallSetVector::insert`: append the element at the end of the
sequence unless it is already present (deduplication is on the whole
`DependencyPair`, i.e. on the (instruction, type, block) triple). -/
def dsetInsert (s : DependencySet) (p : DependencyPair) : DependencySet :=
  if p ∈ s then s else s ++ [p]

/-- Model of `DependencyMap = DenseMap<const Instruction *, DependencySet>`
as an association list keyed by instruction identity. -/
abbrev DependencyMap := List (Instr × DependencySet)

/-- Model of `DenseMap::find` on the dependency map. -/
def dmapFind? : DependencyMap → Instr → Option DependencySet
  | [], _ => none
  | (k, s) :: rest, i => if k = i then some s else dmapFind? rest i

/-- Model of `dependencies[inst].insert(pair)`: `operator[]` default
constructs an empty set for an absent key, then the pair is inserted. -/
def dmapInsert : DependencyMap → Instr → DependencyPair → DependencyMap
  | [], i, p => [(i, dsetInsert [] p)]
  | (k, s) :: rest, i, p =>
    if k = i then (k, dsetInsert s p) :: rest else (k, s) :: dmapInsert rest i p

/-- Keys of the dependency map. -/
def dmapKeys (m : DependencyMap) : List Instr := m.map (·.1)

/-- Model of `llvm::MemDepResult`: a local clobber or def carries the
dependency instruction; `nonLocal`, `nonFuncLocal` and `unknown` carry
no instruction (`getInst()` is null for them). -/
inductive MemDepResult where
  | clobber (inst : Instr)
  | defResult (inst : Instr)
  | nonLocal
  | nonFuncLocal
  | unknown
deriving DecidableEq

/-- Model of `MemDepResult::isClobber()`. -/
def MemDepResult.isClobber : MemDepResult → Bool
  | .clobber _ => true
  | _ => false

/-- Model of `MemDepResult::isDef()`. -/
def MemDepResult.isDef : MemDepResult → Bool
  | .defResult _ => true
  | _ => false

/-- Model of `MemDepResult::isNonLocal()`. -/
def MemDepResult.isNonLocal : MemDepResult → Bool
  | .nonLocal => true
  | _ => false

/-- Model of `MemDepResult::isNonFuncLocal()`. -/
def MemDepResult.isNonFuncLocal : MemDepResult → Bool
  | .nonFuncLocal => true
  | _ => false

/-- Model of `MemDepResult::getInst()`. -/
def MemDepResult.getInst : MemDepResult → Option Instr
  | .clobber i => some i
  | .defResult i => some i
  | _ => none

/-- Model of `DependenceCollector::buildDependency`: the type starts as
`Unknown` and is overwritten by the sequence of `if` statements testing
`isClobber`, `isDef`, `isNonFuncLocal` in that order. -/
def buildDependency (result : MemDepResult) : Dependency :=
  let t0 := DependencyType.Unknown
  let t1 := if result.isClobber then DependencyType.Clobber else t0
  let t2 := if result.isDef then DependencyType.Def else t1
  let t3 := if result.isNonFuncLocal then DependencyType.NonFuncLocal else t2
  { ptr := result.getInst, typ := t3 }

/-- Model of `DependenceCollector::buildDependencyPair`. -/
def buildDependencyPair (dependency : Dependency) (block : Option BlockRef) :
    DependencyPair :=
  (dependency, block)

/-- Model of the `MemoryDependenceResults` interface consumed by
`DependenceCollector::runOnFunction`: `getDependency` is the local query;
the two non-local queries yield sequences of (result, block) pairs. -/
structure Oracle where
  getDependency : Instr → MemDepResult
  nonLocalCallDependency : Instr → List (MemDepResult × Option BlockRef)
  nonLocalPointerDependency : Instr → List (MemDepResult × Option BlockRef)

/-- The body of the instruction loop of `DependenceCollector::runOnFunction`:
skip instructions that cannot touch memory; record the local result with a
null block, or, for non-local results, record one pair per entry of the
relevant non-local query (call/invoke instructions use the call query,
everything else the pointer query). -/
def processInst (oracle : Oracle) (m : DependencyMap) (inst : Instr) :
    DependencyMap :=
  if !inst.mayReadOrWriteMemory then m
  else
    let result := oracle.getDependency inst
    if !result.isNonLocal then
      dmapInsert m inst (buildDependencyPair (buildDependency result) none)
    else if inst.isCall then
      (oracle.nonLocalCallDependency inst).foldl
        (fun acc e => dmapInsert acc inst (buildDependencyPair (buildDependency e.1) e.2)) m
    else
      (oracle.nonLocalPointerDependency inst).foldl
        (fun acc e => dmapInsert acc inst (buildDependencyPair (buildDependency e.1) e.2)) m

/-- Model of `DependenceCollector::runOnFunction`: fold the loop body over
the instructions of the function in program order, starting from the empty
map. -/
def runOnFunction (oracle : Oracle) (insts : List Instr) : DependencyMap :=
  insts.foldl (processInst oracle) []

/-- Model of the `SourceVariable` record as consumed by the printer: the
declared variable name (`DILocalVariable::getName`) and the optional debug
location (line, column). -/
structure SourceVariable where
  name : String
  loc : Option (Nat × Nat)
deriving DecidableEq

/-- Model of `SourceVariableMap = DenseMap<const Value *, SourceVariable>`
restricted to instruction keys, which is how the printer queries it. -/
abbrev SourceVariableMap := List (Instr × SourceVariable)

/-- Model of `SourceVariableMap::find` as used in `formatInstruction`. -/
def svarFind? : SourceVariableMap → Instr → Option SourceVariable
  | [], _ => none
  | (k, v) :: rest, i => if k = i then some v else svarFind? rest i

/-- Model of `CheckMergePrinter::indentLine`: prepend two spaces. -/
def indentLine (s : String) : String := "  " ++ s

/-- Splits a character list at newline characters; an empty input yields one
empty line, mirroring how `std::getline` segments a stream before the
end-of-stream check. -/
def splitNl : List Char → List (List Char)
  | [] => [[]]
  | c :: cs =>
    if c = '\n' then [] :: splitNl cs
    else
      match splitNl cs with
      | [] => [[c]]
      | l :: ls => (c :: l) :: ls

/-- The lines `std::istream_iterator<line>` extracts from a string: split at
newlines, and drop the final segment when it is empty (a trailing newline
does not produce an extra empty line; an empty stream produces no lines). -/
def getLines (s : String) : List String :=
  let parts := splitNl s.toList
  let parts := if parts.getLast? = some [] then parts.dropLast else parts
  parts.map (fun cs => String.mk cs)

/-- Model of `CheckMergePrinter::withIndent`: indent every extracted line by
two spaces and join them, terminating each with a newline. -/
def withIndent (s : String) : String :=
  String.join ((getLines s).map (fun l => indentLine l ++ "\n"))

/-- Model of the three-argument `formatLocation(filename, line, col)`:
`formatv("{0}:{1}:{2}", ...)`.  The printer always calls it with the
column parameter left at its default value 0. -/
def formatLocation3 (filename : String) (line col : Nat) : String :=
  filename ++ ":" ++ toString line ++ ":" ++ toString col

/-- Model of the two-argument `formatLocation(line, col)`:
`formatv(":{0}:{1}", ...)`. -/
def formatLocation2 (line col : Nat) : String :=
  ":" ++ toString line ++ ":" ++ toString col

/-- Model of `formatIdentifier(prefix, descriptor)`. -/
def formatIdentifierGen (pre descriptor : String) : String :=
  pre ++ "." ++ descriptor

/-- Model of `formatIdentifier(Function&)` applied to the function name. -/
def formatIdentifierF (name : String) : String :=
  formatIdentifierGen "function" name

/-- Model of `formatIdentifier(BasicBlock&)`. -/
def formatIdentifierB (b : BlockRef) : String :=
  formatIdentifierGen "block" b.name

/-- Index of the first occurrence of an instruction in the printer's
`instructions` vector, as computed by `std::find` plus `std::distance`;
`none` models the case in which `std::find` reaches the end and the
`assert` fires. -/
def findIdx? : List Instr → Instr → Option Nat
  | [], _ => none
  | x :: xs, i => if x = i then some 0 else (findIdx? xs i).map (· + 1)

/-- Model of `formatIdentifier(Instruction&)`: look the instruction up in
the `instructions` vector; `none` models the assertion failure for an
instruction that is not in the current function. -/
def formatIdentifierI (instrs : List Instr) (i : Instr) : Option String :=
  (findIdx? instrs i).map (fun n => formatIdentifierGen "instruction" (toString n))

/-- Model of `CheckMergePrinter::formatDepType`: the dependent side is `R`
if it may read memory, else `W` if it may write, else `U`; the dependency
side is `W` if it may write memory, else `R` if it may read, else `U`; the
code is `<dependent>A<dependency>`.  The C++ dereferences
`dependency.getPointer()` unconditionally; every call site guards it to be
non-null, so the `none` branch here is never exercised by the printer. -/
def formatDepType (inst : Instr) (dependency : Dependency) : String :=
  let after := if inst.mayRead then "R" else if inst.mayWrite then "W" else "U"
  let before :=
    match dependency.ptr with
    | some depInst => if depInst.mayWrite then "W" else if depInst.mayRead then "R" else "U"
    | none => "U"
  after ++ "A" ++ before

/-- The edge line produced by `formatv(R"("*{0}": "{1}")", ref, type)`. -/
def edgeLineFmt (ref typ : String) : String :=
  "\"*" ++ ref ++ "\": \"" ++ typ ++ "\""

/-- One iteration of the dependency loop in `formatInstruction`: a non-null
target instruction yields an instruction-identified line with the
`formatDepType` code (outer `none` models the assertion failing inside
`formatIdentifier`); a null instruction with a non-null block yields a
block-identified line whose code is the literal `"Unknown"`; a null
instruction with a null block leaves `dependencyRef` empty, so no line is
emitted (`some none`). -/
def depLine (instrs : List Instr) (inst : Instr) (p : DependencyPair) :
    Option (Option String) :=
  match p.1.ptr with
  | some target =>
    match formatIdentifierI instrs target with
    | some ref => some (some (edgeLineFmt ref (formatDepType inst p.1)))
    | none => none
  | none =>
    match p.2 with
    | some b => some (some (edgeLineFmt (formatIdentifierB b) "Unknown"))
    | none => some none

/-- The sequence of edge lines the dependency loop emits for a dependency
set, in iteration order; `none` models an assertion failure on some edge. -/
def depLines (instrs : List Instr) (inst : Instr) :
    List DependencyPair → Option (List String)
  | [] => some []
  | p :: ps =>
    match depLine instrs inst p, depLines instrs inst ps with
    | some l, some rest => some (l.toList ++ rest)
    | _, _ => none

/-- The target position the specification assigns to an emitted edge: the
instruction index for an instruction-targeted edge, the position of the
block in a given block order for a block-only edge, nothing for a dropped
edge. -/
def edgeTargetIndex (instrs : List Instr) (blockOrder : List BlockRef)
    (p : DependencyPair) : Option Nat :=
  match p.1.ptr with
  | some t => findIdx? instrs t
  | none =>
    match p.2 with
    | some b => blockOrder.indexOf b
    | none => none

/-- The target positions of the emitted edges, in emission order. -/
def emissionIndices (instrs : List Instr) (blockOrder : List BlockRef)
    (deps : List DependencyPair) : List Nat :=
  deps.filterMap (edgeTargetIndex instrs blockOrder)

/-- Model of `CheckMergePrinter::formatInstruction`: the header line, the
indented opcode/location block, the optional variable block, and the
optional dependencies block, with the nested stream indented once more;
`none` models an assertion failure in `formatIdentifier`. -/
def formatInstruction (instrs : List Instr) (svars : SourceVariableMap)
    (dependencies : DependencyMap) (inst : Instr) : Option String :=
  match formatIdentifierI instrs inst with
  | none => none
  | some instId =>
    let headLine := "- " ++ instId ++ ":" ++ "\n"
    let core := withIndent ("opcode: " ++ inst.opcode ++ "\nlocation: \"" ++
      (match inst.debugLoc with
       | some (l, c) => formatLocation2 l c
       | none => "") ++ "\"")
    let varPart :=
      match svarFind? svars inst with
      | some v =>
        withIndent "variable:" ++ withIndent (withIndent
          ("name: \"" ++ v.name ++ "\"\nlocation: \"" ++
            (match v.loc with
             | some (l, c) => formatLocation2 l c
             | none => "") ++ "\""))
      | none => ""
    match dmapFind? dependencies inst with
    | some deps =>
      match depLines instrs inst deps with
      | some ls =>
        let depPart := withIndent "dependencies:" ++
          String.join (ls.map (fun l => indentLine (indentLine l) ++ "\n"))
        some (headLine ++ withIndent (core ++ varPart ++ depPart))
      | none => none
    | none => some (headLine ++ withIndent (core ++ varPart))

/-- Model of a basic block as the printer walks it: its identity and its
instructions in program order. -/
structure BBlock where
  ref : BlockRef
  insts : List Instr
deriving DecidableEq

/-- Model of `DISubprogram` as observed by `formatFunction`: name, file
name and line. -/
structure Subprogram where
  name : String
  filename : String
  line : Nat
deriving DecidableEq

/-- Model of `llvm::Function` as observed by the printer: IR name, the
enclosing module name, the optional debug subprogram, and the blocks in
program order. -/
structure Func where
  name : String
  moduleName : String
  subprogram : Option Subprogram
  blocks : List BBlock
deriving DecidableEq

/-- The instruction traversal of `CheckMergePrinter::runOnFunction`: all
instructions of the function, blocks in program order, instructions within
each block in program order. -/
def functionInstructions (f : Func) : List Instr :=
  (f.blocks.map (·.insts)).flatten

/-- The `location` field of the function header: the subprogram's file and
line through the three-argument `formatLocation` (column defaulted to 0)
when a subprogram exists, the literal `~` otherwise. -/
def locationField (f : Func) : String :=
  match f.subprogram with
  | some sp => formatLocation3 sp.filename sp.line 0
  | none => "~"

/-- The `formatv` body of the function header in `formatFunction`: name
(debug name when a subprogram exists, IR name otherwise), module name, and
the location field. -/
def funcMeta (f : Func) : String :=
  "name: \"" ++
    (match f.subprogram with
     | some sp => sp.name
     | none => f.name) ++
  "\"\n" ++ "module: \"" ++ f.moduleName ++ "\"\n" ++
  "location: \"" ++ locationField f ++ "\""

/-- The instruction loop of `formatBasicBlock`: each instruction's text,
indented, concatenated in program order. -/
def formatInstrList (instrs : List Instr) (svars : SourceVariableMap)
    (dependencies : DependencyMap) : List Instr → Option String
  | [] => some ""
  | i :: is =>
    match formatInstruction instrs svars dependencies i,
          formatInstrList instrs svars dependencies is with
    | some s, some rest => some (withIndent s ++ rest)
    | _, _ => none

/-- Model of `CheckMergePrinter::formatBasicBlock`. -/
def formatBasicBlock (instrs : List Instr) (svars : SourceVariableMap)
    (dependencies : DependencyMap) (b : BBlock) : Option String :=
  (formatInstrList instrs svars dependencies b.insts).map
    (fun s => formatIdentifierB b.ref ++ ":" ++ "\n" ++ s)

/-- The block loop of `formatFunction`: each block's text indented and
followed by a newline, in program order. -/
def formatBlockList (instrs : List Instr) (svars : SourceVariableMap)
    (dependencies : DependencyMap) : List BBlock → Option String
  | [] => some ""
  | b :: bs =>
    match formatBasicBlock instrs svars dependencies b,
          formatBlockList instrs svars dependencies bs with
    | some s, some rest => some (withIndent s ++ "\n" ++ rest)
    | _, _ => none

/-- Model of `CheckMergePrinter::formatFunction`: function identifier line,
indented header, then the blocks. -/
def formatFunction (instrs : List Instr) (svars : SourceVariableMap)
    (dependencies : DependencyMap) (f : Func) : Option String :=
  (formatBlockList instrs svars dependencies f.blocks).map
    (fun blocksStr =>
      formatIdentifierF f.name ++ ":" ++ "\n" ++
        withIndent (funcMeta f) ++ "\n" ++ blocksStr)

/-- The dependency-code derivation rule as the specification words it for
both sides: `R` if the instruction may read memory, else `W` if it may
write memory, else `U`.  Kept separate from `formatDepType` so the two can
be compared. -/
def specSideMode (i : Instr) : String :=
  if i.mayRead then "R" else if i.mayWrite then "W" else "U"

/-- The combined dependency code as the specification describes it:
`<dependentMode>A<dependencyMode>` with both modes derived by
`specSideMode`. -/
def specDepCode (inst depInst : Instr) : String :=
  specSideMode inst ++ "A" ++ specSideMode depInst

/-- A store-like instruction: writes memory, does not read it. -/
def storeInst : Instr := ⟨0, "store", false, true, false, none⟩

/-- A second store-like instruction, distinct from `storeInst`. -/
def storeInst2 : Instr := ⟨1, "store", false, true, false, none⟩

/-- A load-like instruction: reads memory, does not write it. -/
def loadInst : Instr := ⟨2, "load", true, false, false, none⟩

/-- A call instruction that reads memory. -/
def callInst : Instr := ⟨3, "call", true, false, true, none⟩

/-- An instruction that both reads and writes memory. -/
def rwInst : Instr := ⟨4, "atomicrmw", true, true, false, none⟩

/-- An instruction that touches no memory. -/
def retInst : Instr := ⟨5, "ret", false, false, false, none⟩

/-- A first concrete basic-block reference. -/
def blockA : BlockRef := ⟨0, "entry"⟩

/-- A second concrete basic-block reference. -/
def blockB : BlockRef := ⟨1, "if.then"⟩

/-- An oracle whose local query always reports an unknown result (a result
with no dependency instruction that is not non-local). -/
def unknownOracle : Oracle :=
  ⟨fun _ => .unknown, fun _ => [], fun _ => []⟩

/-- An oracle that reports a non-local result for the reading call
instruction and resolves it, through the call query, to the same defining
store in two different predecessor blocks. -/
def twoBlockOracle : Oracle :=
  { getDependency := fun i => if i = callInst then .nonLocal else .unknown
    nonLocalCallDependency := fun i =>
      if i = callInst then
        [(.defResult storeInst, some blockA), (.defResult storeInst, some blockB)]
      else []
    nonLocalPointerDependency := fun _ => [] }

/-- An oracle that reports a non-local result for the load and resolves it,
through the pointer query, first to the store at instruction index 1 and
then to the store at instruction index 0. -/
def outOfOrderOracle : Oracle :=
  { getDependency := fun i => if i = loadInst then .nonLocal else .unknown
    nonLocalCallDependency := fun _ => []
    nonLocalPointerDependency := fun i =>
      if i = loadInst then
        [(.defResult storeInst2, some blockA), (.defResult storeInst, some blockB)]
      else [] }

/-- A concrete two-block function with three instructions and no debug
subprogram. -/
def sampleFunc : Func :=
  { name := "f", moduleName := "m", subprogram := none
    blocks := [⟨blockA, [storeInst, loadInst]⟩, ⟨blockB, [retInst]⟩] }

/-- A concrete function whose debug subprogram records file `a.c`, line 3. -/
def dbgFunc : Func :=
  { name := "g", moduleName := "m", subprogram := some ⟨"g", "a.c", 3⟩
    blocks := [] }

/-- The exact report text `formatFunction` produces for `sampleFunc` with
empty variable and dependency maps. -/
def sampleReport : String :=
  "function.f:\n  name: \"f\"\n  module: \"m\"\n  location: \"~\"\n\n" ++
  "  block.entry:\n    - instruction.0:\n        opcode: store\n" ++
  "        location: \"\"\n    - instruction.1:\n        opcode: load\n" ++
  "        location: \"\"\n\n  block.if.then:\n    - instruction.2:\n" ++
  "        opcode: ret\n        location: \"\"\n\n"

/-- Claim C1 (counterexample): the specification derives both sides of the
dependency code with the read-before-write rule, but `formatDepType`
checks `mayWriteToMemory` first on the dependency side; on a dependency
instruction that may both read and write memory, the code yields `WAW`
where the specification's rule yields `WAR`. -/
theorem c1_counterexample :
    formatDepType storeInst ⟨some rwInst, DependencyType.Def⟩ = "WAW" ∧
    specDepCode storeInst rwInst = "WAR" ∧
    ("WAW" : String) ≠ "WAR" :=
  ⟨rfl, rfl, by decide⟩

/-- Claim C1 (amended): for an edge with a non-null target instruction the
serialized code is `<dependentMode>A<dependencyMode>` where the dependent
side is derived read-first and the dependency side write-first; the two
rules agree (and hence the claim holds) whenever the dependency
instruction does not both read and write memory, and an instruction that
reads memory depending on one that writes memory yields `RAW`. -/
theorem c1_amended : ∀ (inst t : Instr) (k : DependencyType),
    (¬(t.mayRead = true ∧ t.mayWrite = true) →
      formatDepType inst ⟨some t, k⟩ = specDepCode inst t) ∧
    (inst.mayRead = true → t.mayWrite = true →
      formatDepType inst ⟨some t, k⟩ = "RAW") := by
  intro inst t k
  constructor
  · intro h
    cases hr : t.mayRead <;> cases hw : t.mayWrite <;>
      simp_all [formatDepType, specDepCode, specSideMode]
  · intro h1 h2
    simp [formatDepType, h1, h2]

/-- Witness for `c1_amended` at concrete instructions: a store depending
on a load matches the specification's code, and a load depending on a
store yields `RAW`. -/
theorem c1_witness :
    formatDepType storeInst ⟨some loadInst, DependencyType.Def⟩ =
      specDepCode storeInst loadInst ∧
    formatDepType loadInst ⟨some storeInst, DependencyType.Def⟩ = "RAW" :=
  ⟨(c1_amended storeInst loadInst DependencyType.Def).1 (by decide),
   (c1_amended loadInst storeInst DependencyType.Def).2 (by decide) (by decide)⟩

/-- Claim C7: an edge with a null target instruction and a null block
produces no output line, and an edge with a null target instruction but a
non-null block produces a block-identifier line whose dependency-code
field is exactly the literal `Unknown`, regardless of the stored
dependency type. -/
theorem c7_null_edge_policy : ∀ (instrs : List Instr) (inst : Instr)
    (typ : DependencyType),
    depLine instrs inst (⟨none, typ⟩, none) = some none ∧
    ∀ b : BlockRef, depLine instrs inst (⟨none, typ⟩, some b) =
      some (some (edgeLineFmt (formatIdentifierB b) "Unknown")) :=
  fun _ _ _ => ⟨rfl, fun _ => rfl⟩

/-- Claim C10: for an edge with a non-null target instruction the emitted
line ignores the edge's block tag entirely, so a non-local edge resolved
through a predecessor block serializes identically to a local edge (null
block) with the same target instruction and kind. -/
theorem c10_block_tag_discarded : ∀ (instrs : List Instr) (inst t : Instr)
    (k : DependencyType) (b1 b2 : Option BlockRef),
    depLine instrs inst (⟨some t, k⟩, b1) = depLine instrs inst (⟨some t, k⟩, b2) :=
  fun _ _ _ _ _ _ => rfl

/-- Claim C9 (counterexample): with a debug subprogram recording file
`a.c` and line 3, the serialized location field is `a.c:3:0` — the
three-argument `formatLocation` appends the defaulted column 0 — and not
the claimed `a.c:3`. -/
theorem c9_counterexample :
    locationField dbgFunc = "a.c:3:0" ∧
    funcMeta dbgFunc = "name: \"g\"\nmodule: \"m\"\nlocation: \"a.c:3:0\"" ∧
    ("a.c:3:0" : String) ≠ "a.c:3" :=
  ⟨by decide, by decide, by decide⟩

/-- Claim C9 (amended): the function-header location field is the debug
subprogram's file and line followed by a defaulted column of 0, formatted
`file:line:0`, when debug info is present, and exactly the literal `~`
when it is unknown. -/
theorem c9_amended : ∀ (f : Func),
    (∀ sp : Subprogram, f.subprogram = some sp →
      locationField f = sp.filename ++ ":" ++ toString sp.line ++ ":" ++ "0") ∧
    (f.subprogram = none → locationField f = "~") := by
  intro f
  constructor
  · intro sp h
    simp only [locationField, h]
    rfl
  · intro h
    simp [locationField, h]

/-- Witness for `c9_amended` at the concrete functions `dbgFunc` (debug
info present) and `sampleFunc` (no subprogram). -/
theorem c9_witness :
    locationField dbgFunc = "a.c" ++ ":" ++ toString 3 ++ ":" ++ "0" ∧
    locationField sampleFunc = "~" :=
  ⟨(c9_amended dbgFunc).1 ⟨"g", "a.c", 3⟩ rfl, (c9_amended sampleFunc).2 rfl⟩

/-- Claim C8: serialization is a deterministic function of the instruction
index, variable correlation, dependency map and function: two
serializations of the same inputs are byte-identical. -/
theorem c8_deterministic : ∀ (instrs : List Instr) (svars : SourceVariableMap)
    (dependencies : DependencyMap) (f : Func) (out1 out2 : Option String),
    formatFunction instrs svars dependencies f = out1 →
    formatFunction instrs svars dependencies f = out2 → out1 = out2 :=
  fun _ _ _ _ _ _ h1 h2 => h1.symm.trans h2

set_option maxRecDepth 4000 in
/-- Witness for `c8_deterministic`: on `sampleFunc` with empty maps the
serializer produces exactly `sampleReport`, and the two runs coincide. -/
theorem c8_witness :
    formatFunction (functionInstructions sampleFunc) [] [] sampleFunc =
      some sampleReport ∧
    (some sampleReport : Option String) = some sampleReport :=
  ⟨by decide,
   c8_deterministic (functionInstructions sampleFunc) [] [] sampleFunc
     (some sampleReport) (some sampleReport) (by decide) (by decide)⟩

/-- In a duplicate-free list, the element at position `n` is found at
position `n`: the first-occurrence search of `std::find` recovers the
traversal position. -/
theorem findIdx_get_aux : ∀ (l : List Instr), l.Nodup →
    ∀ (n : Nat) (h : n < l.length), findIdx? l (l.get ⟨n, h⟩) = some n := by
  intro l
  induction l with
  | nil => intro _ n h; exact absurd h (Nat.not_lt_zero n)
  | cons x xs ih =>
    intro hnd n h
    cases n with
    | zero => simp [findIdx?]
    | succ m =>
      have hx : x ∉ xs := (List.nodup_cons.mp hnd).1
      have hm : m < xs.length := Nat.lt_of_succ_lt_succ h
      have hne : x ≠ xs.get ⟨m, hm⟩ := fun he => hx (he ▸ xs.get_mem m hm)
      have ihm := ih (List.nodup_cons.mp hnd).2 m hm
      simp only [List.get_eq_getElem] at ihm hne ⊢
      simp [findIdx?, hne, ihm]

/-- A successful index lookup points at an occurrence of the queried
instruction. -/
theorem findIdx_mem_aux : ∀ (l : List Instr) (i : Instr) (n : Nat),
    findIdx? l i = some n → ∃ h : n < l.length, l.get ⟨n, h⟩ = i := by
  intro l
  induction l with
  | nil => intro i n h; simp [findIdx?] at h
  | cons x xs ih =>
    intro i n h
    by_cases hx : x = i
    · simp [findIdx?, hx] at h
      exact ⟨h ▸ Nat.succ_pos _, by simp [← h, hx]⟩
    · simp [findIdx?, hx] at h
      obtain ⟨m, hm, rfl⟩ := h
      obtain ⟨hlt, he⟩ := ih i m hm
      exact ⟨Nat.succ_lt_succ hlt, by simpa using he⟩

/-- Querying the index for an instruction that is not in the list fails
(models the assertion firing in `formatIdentifier(Instruction&)`). -/
theorem findIdx_none_aux : ∀ (l : List Instr) (i : Instr), i ∉ l →
    findIdx? l i = none := by
  intro l
  induction l with
  | nil => intro i _; rfl
  | cons x xs ih =>
    intro i hi
    have hx : x ≠ i := fun he => hi (he ▸ List.mem_cons_self x xs)
    have hxs : i ∉ xs := fun hm => hi (List.mem_cons_of_mem x hm)
    simp [findIdx?, hx, ih i hxs]

/-- Claim C6: over a function with pointer-distinct instructions, the
instruction index assigns `0, 1, 2, ...` following blocks in program order
and instructions within each block in program order (the instruction at
traversal position `n` is indexed `n`), it is injective, and querying it
for an instruction that is not in the current function fails (the `none`
result models the assertion firing rather than a recoverable value). -/
theorem c6_instruction_index : ∀ (f : Func), (functionInstructions f).Nodup →
    (∀ (n : Nat) (h : n < (functionInstructions f).length),
      findIdx? (functionInstructions f) ((functionInstructions f).get ⟨n, h⟩) = some n) ∧
    (∀ (i j : Instr) (n : Nat), findIdx? (functionInstructions f) i = some n →
      findIdx? (functionInstructions f) j = some n → i = j) ∧
    (∀ i : Instr, i ∉ functionInstructions f →
      findIdx? (functionInstructions f) i = none) := by
  intro f hnd
  refine ⟨findIdx_get_aux _ hnd, ?_, fun i hi => findIdx_none_aux _ i hi⟩
  intro i j n hi hj
  obtain ⟨h1, e1⟩ := findIdx_mem_aux _ i n hi
  obtain ⟨h2, e2⟩ := findIdx_mem_aux _ j n hj
  rw [← e1, ← e2]

/-- Witness for `c6_instruction_index` on `sampleFunc`: its three
instructions are distinct and the instruction at traversal position 1 is
indexed 1. -/
theorem c6_witness :
    (functionInstructions sampleFunc).Nodup ∧
    findIdx? (functionInstructions sampleFunc)
      ((functionInstructions sampleFunc).get ⟨1, by decide⟩) = some 1 :=
  ⟨by decide, (c6_instruction_index sampleFunc (by decide)).1 1 (by decide)⟩

/-- Claim C2 (counterexample): the same (target, kind) dependency — the
defining store, kind `Def` — discovered for the call through two different
blocks leaves two edges in the edge set and two identical edge lines in
the serialized output, because the set deduplicates on the whole
(instruction, kind, block) triple. -/
theorem c2_counterexample :
    dmapFind? (runOnFunction twoBlockOracle [storeInst, callInst]) callInst =
      some [(⟨some storeInst, DependencyType.Def⟩, some blockA),
            (⟨some storeInst, DependencyType.Def⟩, some blockB)] ∧
    depLines [storeInst, callInst] callInst
      [(⟨some storeInst, DependencyType.Def⟩, some blockA),
       (⟨some storeInst, DependencyType.Def⟩, some blockB)] =
      some ["\"*instruction.0\": \"RAW\"", "\"*instruction.0\": \"RAW\""] ∧
    ([(⟨some storeInst, DependencyType.Def⟩, some blockA),
      (⟨some storeInst, DependencyType.Def⟩, some blockB)] : DependencySet).length ≠ 1 :=
  ⟨by decide, by decide, by decide⟩

/-- Inserting a pair that is already present leaves the set unchanged. -/
theorem dsetInsert_of_mem {s : DependencySet} {p : DependencyPair}
    (h : p ∈ s) : dsetInsert s p = s := by
  simp [dsetInsert, h]

/-- The inserted pair is a member of the resulting set. -/
theorem dsetInsert_mem_self (s : DependencySet) (p : DependencyPair) :
    p ∈ dsetInsert s p := by
  unfold dsetInsert
  split
  · assumption
  · exact List.mem_append_right _ (List.mem_singleton.mpr rfl)

/-- Membership survives insertion of further pairs. -/
theorem dsetInsert_mem_of_mem {s : DependencySet} {p q : DependencyPair}
    (h : p ∈ s) : p ∈ dsetInsert s q := by
  unfold dsetInsert
  split
  · exact h
  · exact List.mem_append_left _ h

/-- Claim C2 (amended): the edge set deduplicates on the whole
(target, kind, block) triple: inserting the identical dependency pair a
second time — e.g. the same dependency rediscovered on the same resolution
path — leaves the map unchanged, so exactly one edge remains.  (The same
(target, kind) under two *different* blocks is kept once per block, per
`c2_counterexample`.) -/
theorem c2_amended : ∀ (m : DependencyMap) (i : Instr) (p : DependencyPair),
    dmapInsert (dmapInsert m i p) i p = dmapInsert m i p := by
  intro m i p
  induction m with
  | nil =>
    simp [dmapInsert, dsetInsert_of_mem (dsetInsert_mem_self [] p)]
  | cons hd rest ih =>
    obtain ⟨k, s⟩ := hd
    by_cases hk : k = i
    · simp [dmapInsert, hk, dsetInsert_of_mem (dsetInsert_mem_self s p)]
    · simp [dmapInsert, hk, ih]

/-- Claim C3 (counterexample): with the store at instruction index 1
discovered before the store at index 0, the collector stores the edges in
discovery order and the serializer emits them in that order — target
indices `[1, 0]`, not ascending. -/
theorem c3_counterexample :
    dmapFind? (runOnFunction outOfOrderOracle [storeInst, storeInst2, loadInst]) loadInst =
      some [(⟨some storeInst2, DependencyType.Def⟩, some blockA),
            (⟨some storeInst, DependencyType.Def⟩, some blockB)] ∧
    emissionIndices [storeInst, storeInst2, loadInst] []
      [(⟨some storeInst2, DependencyType.Def⟩, some blockA),
       (⟨some storeInst, DependencyType.Def⟩, some blockB)] = [1, 0] ∧
    depLines [storeInst, storeInst2, loadInst] loadInst
      [(⟨some storeInst2, DependencyType.Def⟩, some blockA),
       (⟨some storeInst, DependencyType.Def⟩, some blockB)] =
      some ["\"*instruction.1\": \"RAW\"", "\"*instruction.0\": \"RAW\""] ∧
    ¬ List.Pairwise (· ≤ ·) [1, 0] :=
  ⟨by decide, by decide, by decide, by decide⟩

/-- The dependency loop processes a concatenation of edge sequences left
to right. -/
theorem depLines_append (instrs : List Instr) (inst : Instr) :
    ∀ (s1 s2 : List DependencyPair),
    depLines instrs inst (s1 ++ s2) =
      match depLines instrs inst s1, depLines instrs inst s2 with
      | some a, some b => some (a ++ b)
      | _, _ => none := by
  intro s1 s2
  induction s1 with
  | nil =>
    cases h2 : depLines instrs inst s2 <;> simp [depLines, h2]
  | cons p ps ih =>
    show depLines instrs inst (p :: (ps ++ s2)) = _
    cases hp : depLine instrs inst p <;>
      cases h1 : depLines instrs inst ps <;>
      cases h2 : depLines instrs inst s2 <;>
      simp_all [depLines]

/-- Claim C3 (amended): the serializer emits edge lines in the set's
insertion order, not sorted by target index: re-inserting a present pair
changes nothing, and inserting a fresh pair appends its line (if any) at
the end of the emission sequence, wherever its target index falls. -/
theorem c3_amended : ∀ (instrs : List Instr) (inst : Instr)
    (s : DependencySet) (p : DependencyPair),
    (p ∈ s → depLines instrs inst (dsetInsert s p) = depLines instrs inst s) ∧
    (p ∉ s → depLines instrs inst (dsetInsert s p) =
      match depLines instrs inst s, depLine instrs inst p with
      | some ls, some l => some (ls ++ l.toList)
      | _, _ => none) := by
  intro instrs inst s p
  constructor
  · intro h
    rw [dsetInsert_of_mem h]
  · intro h
    rw [show dsetInsert s p = s ++ [p] from by simp [dsetInsert, h]]
    rw [depLines_append]
    cases hs : depLines instrs inst s <;>
      cases hp : depLine instrs inst p <;>
      simp_all [depLines]

/-- Witness for `c3_amended`: inserting a fresh store-targeted edge into
the empty set makes the serializer emit exactly that edge's line. -/
theorem c3_witness :
    ((⟨some storeInst, DependencyType.Def⟩, some blockA) : DependencyPair) ∉
      ([] : DependencySet) ∧
    depLines [storeInst, loadInst] loadInst
      (dsetInsert [] (⟨some storeInst, DependencyType.Def⟩, some blockA)) =
      match depLines [storeInst, loadInst] loadInst [],
            depLine [storeInst, loadInst] loadInst
              (⟨some storeInst, DependencyType.Def⟩, some blockA) with
      | some ls, some l => some (ls ++ l.toList)
      | _, _ => none :=
  ⟨by decide,
   (c3_amended [storeInst, loadInst] loadInst []
     (⟨some storeInst, DependencyType.Def⟩, some blockA)).2 (by decide)⟩

/-- Inserting under key `j` either leaves the key sequence unchanged (key
already present) or appends `j` at the end. -/
theorem dmapKeys_insertDep : ∀ (m : DependencyMap) (j : Instr) (p : DependencyPair),
    dmapKeys (dmapInsert m j p) =
      if j ∈ dmapKeys m then dmapKeys m else dmapKeys m ++ [j] := by
  intro m j p
  induction m with
  | nil => simp [dmapInsert, dmapKeys]
  | cons hd rest ih =>
    obtain ⟨a, s⟩ := hd
    by_cases ha : a = j
    · subst ha
      simp [dmapInsert, dmapKeys]
    · have haj : j ≠ a := fun he => ha he.symm
      have h1 : dmapInsert ((a, s) :: rest) j p = (a, s) :: dmapInsert rest j p := by
        simp [dmapInsert, ha]
      have h2 : dmapKeys ((a, s) :: dmapInsert rest j p) =
          a :: dmapKeys (dmapInsert rest j p) := rfl
      have h3 : dmapKeys ((a, s) :: rest) = a :: dmapKeys rest := rfl
      rw [h1, h2, h3, ih]
      by_cases hj : j ∈ dmapKeys rest
      · rw [if_pos hj, if_pos (List.mem_cons_of_mem a hj)]
      · have hnc : j ∉ a :: dmapKeys rest := by
          intro hc
          rcases List.mem_cons.mp hc with hc | hc
          · exact haj hc
          · exact hj hc
        rw [if_neg hj, if_neg hnc]
        rfl

/-- A key of the map after an insertion is the inserted key or an old key. -/
theorem mem_dmapKeys_insertDep {m : DependencyMap} {j k : Instr}
    {p : DependencyPair} (h : k ∈ dmapKeys (dmapInsert m j p)) :
    k = j ∨ k ∈ dmapKeys m := by
  rw [dmapKeys_insertDep] at h
  split at h
  · exact Or.inr h
  · rcases List.mem_append.mp h with h | h
    · exact Or.inr h
    · exact Or.inl (List.mem_singleton.mp h)

/-- A key of the map after folding insertions under key `j` over a
non-local result list is `j` or an old key. -/
theorem mem_dmapKeys_foldl : ∀ (l : List (MemDepResult × Option BlockRef))
    (m : DependencyMap) (j k : Instr),
    k ∈ dmapKeys (l.foldl (fun acc e =>
      dmapInsert acc j (buildDependencyPair (buildDependency e.1) e.2)) m) →
    k = j ∨ k ∈ dmapKeys m := by
  intro l
  induction l with
  | nil => intro m j k h; exact Or.inr h
  | cons e es ih =>
    intro m j k h
    rcases ih _ j k h with h | h
    · exact Or.inl h
    · exact mem_dmapKeys_insertDep h

/-- A key of the map after one loop iteration of the collector is an old
key, or the processed instruction — and in the latter case the
instruction passed the memory guard. -/
theorem mem_dmapKeys_processInst {oracle : Oracle} {m : DependencyMap}
    {i k : Instr} (h : k ∈ dmapKeys (processInst oracle m i)) :
    (k = i ∧ i.mayReadOrWriteMemory = true) ∨ k ∈ dmapKeys m := by
  unfold processInst at h
  cases hb : i.mayReadOrWriteMemory with
  | false => rw [hb] at h; exact Or.inr h
  | true =>
    rw [hb] at h
    simp only [Bool.not_true, Bool.false_eq_true, if_false] at h
    split at h
    · rcases mem_dmapKeys_insertDep h with h | h
      · exact Or.inl ⟨h, rfl⟩
      · exact Or.inr h
    · split at h <;>
      · rcases mem_dmapKeys_foldl _ m i k h with h | h
        · exact Or.inl ⟨h, rfl⟩
        · exact Or.inr h

/-- Claim C4: every key of the dependency map built by the collector is an
instruction that may read or write memory; an instruction that can do
neither never appears as a key. -/
theorem c4_keys_memory : ∀ (oracle : Oracle) (insts : List Instr) (k : Instr),
    k ∈ dmapKeys (runOnFunction oracle insts) →
    k.mayReadOrWriteMemory = true := by
  intro oracle insts
  suffices haux : ∀ (l : List Instr) (m : DependencyMap),
      (∀ k, k ∈ dmapKeys m → k.mayReadOrWriteMemory = true) →
      ∀ k, k ∈ dmapKeys (l.foldl (processInst oracle) m) →
        k.mayReadOrWriteMemory = true by
    intro k hk
    exact haux insts [] (by intro k2 h2; simp [dmapKeys] at h2) k hk
  intro l
  induction l with
  | nil => intro m hm k hk; exact hm k hk
  | cons i is ih =>
    intro m hm k hk
    refine ih (processInst oracle m i) ?_ k hk
    intro k2 hk2
    rcases mem_dmapKeys_processInst hk2 with ⟨rfl, hmem⟩ | h2
    · exact hmem
    · exact hm k2 h2

/-- Witness for `c4_keys_memory`: the load is a key of the map built for a
one-load function under the unknown oracle, and it may touch memory. -/
theorem c4_witness :
    loadInst ∈ dmapKeys (runOnFunction unknownOracle [loadInst]) ∧
    loadInst.mayReadOrWriteMemory = true :=
  ⟨by decide, c4_keys_memory unknownOracle [loadInst] loadInst (by decide)⟩

/-- Looking a key up after an insertion: the inserted key maps to its old
set (empty when absent) with the pair inserted; other keys are untouched. -/
theorem dmapFind?_insertDep : ∀ (m : DependencyMap) (j : Instr)
    (p : DependencyPair) (i : Instr),
    dmapFind? (dmapInsert m j p) i =
      if j = i then some (dsetInsert ((dmapFind? m i).getD []) p)
      else dmapFind? m i := by
  intro m j p i
  induction m with
  | nil => simp [dmapInsert, dmapFind?]
  | cons hd rest ih =>
    obtain ⟨a, s⟩ := hd
    by_cases ha : a = j
    · subst ha
      by_cases hi : a = i
      · subst hi; simp [dmapInsert, dmapFind?]
      · simp [dmapInsert, dmapFind?, hi]
    · by_cases hi : a = i
      · subst hi
        have hji : j ≠ a := fun he => ha he.symm
        simp [dmapInsert, ha, dmapFind?, hji]
      · simp [dmapInsert, ha, dmapFind?, hi, ih]

/-- An entry that contains a given pair still contains it after any
further insertion. -/
theorem present_insertDep {i : Instr} {pair : DependencyPair} :
    ∀ (m : DependencyMap) (j : Instr) (q : DependencyPair),
    (∃ s, dmapFind? m i = some s ∧ pair ∈ s) →
    ∃ s, dmapFind? (dmapInsert m j q) i = some s ∧ pair ∈ s := by
  intro m j q h
  obtain ⟨s, hs, hp⟩ := h
  rw [dmapFind?_insertDep]
  by_cases hj : j = i
  · rw [if_pos hj, hs]
    exact ⟨_, rfl, dsetInsert_mem_of_mem hp⟩
  · rw [if_neg hj]
    exact ⟨s, hs, hp⟩

/-- An entry that contains a given pair survives a fold of insertions over
a non-local result list. -/
theorem present_foldl {i : Instr} {pair : DependencyPair} :
    ∀ (l : List (MemDepResult × Option BlockRef)) (m : DependencyMap) (j : Instr),
    (∃ s, dmapFind? m i = some s ∧ pair ∈ s) →
    ∃ s, dmapFind? (l.foldl (fun acc e =>
        dmapInsert acc j (buildDependencyPair (buildDependency e.1) e.2)) m) i =
      some s ∧ pair ∈ s := by
  intro l
  induction l with
  | nil => intro m j h; exact h
  | cons e es ih => intro m j h; exact ih _ j (present_insertDep m j _ h)

/-- An entry that contains a given pair survives one loop iteration of the
collector for any instruction. -/
theorem present_processInst {i : Instr} {pair : DependencyPair}
    {oracle : Oracle} {m : DependencyMap} (j : Instr)
    (h : ∃ s, dmapFind? m i = some s ∧ pair ∈ s) :
    ∃ s, dmapFind? (processInst oracle m j) i = some s ∧ pair ∈ s := by
  unfold processInst
  cases hb : j.mayReadOrWriteMemory with
  | false => simpa using h
  | true =>
    simp only [hb, Bool.not_true, Bool.false_eq_true, if_false]
    split
    · exact present_insertDep m j _ h
    · split
      · exact present_foldl _ m j h
      · exact present_foldl _ m j h

/-- An entry that contains a given pair survives the rest of the
collector's instruction fold. -/
theorem present_runFold {i : Instr} {pair : DependencyPair} {oracle : Oracle} :
    ∀ (l : List Instr) (m : DependencyMap),
    (∃ s, dmapFind? m i = some s ∧ pair ∈ s) →
    ∃ s, dmapFind? (l.foldl (processInst oracle) m) i = some s ∧ pair ∈ s := by
  intro l
  induction l with
  | nil => intro m h; exact h
  | cons j js ih => intro m h; exact ih _ (present_processInst j h)

/-- Processing a memory-touching instruction whose local result is not
non-local records the null-block edge for it. -/
theorem establish_local {oracle : Oracle} {i : Instr}
    (hm : i.mayReadOrWriteMemory = true)
    (hl : (oracle.getDependency i).isNonLocal = false) :
    ∀ m : DependencyMap, ∃ s, dmapFind? (processInst oracle m i) i = some s ∧
      (buildDependency (oracle.getDependency i), (none : Option BlockRef)) ∈ s := by
  intro m
  unfold processInst
  simp only [hm, hl, Bool.not_true, Bool.not_false, Bool.false_eq_true,
    if_false, if_true]
  rw [dmapFind?_insertDep, if_pos rfl]
  exact ⟨_, rfl, dsetInsert_mem_self _ _⟩

/-- Claim C5 (counterexample): the load's local query under the unknown
oracle reports no discoverable dependency (no instruction, no block), yet
the built map has an entry for the load — a singleton set holding the null
edge — rather than no entry. -/
theorem c5_counterexample :
    dmapFind? (runOnFunction unknownOracle [loadInst]) loadInst =
      some [(⟨none, DependencyType.Unknown⟩, none)] ∧
    dmapFind? (runOnFunction unknownOracle [loadInst]) loadInst ≠ none :=
  ⟨by decide, by decide⟩

/-- Claim C5 (amended): a memory-touching instruction whose local query
result is not non-local and carries no target instruction is *present* in
the map, with an edge holding neither instruction nor block; that edge
yields no serialized edge line (it is dropped by the report layer). -/
theorem c5_amended : ∀ (oracle : Oracle) (insts : List Instr) (i : Instr),
    i ∈ insts → i.mayReadOrWriteMemory = true →
    (oracle.getDependency i).isNonLocal = false →
    (oracle.getDependency i).getInst = none →
    ∃ s, dmapFind? (runOnFunction oracle insts) i = some s ∧
      (buildDependency (oracle.getDependency i), (none : Option BlockRef)) ∈ s ∧
      ∀ instrs2 : List Instr,
        depLine instrs2 i (buildDependency (oracle.getDependency i), none) =
          some none := by
  intro oracle insts i hmem hm hl hinst
  have hline : ∀ instrs2 : List Instr,
      depLine instrs2 i (buildDependency (oracle.getDependency i), none) =
        some none := by
    intro instrs2
    simp [depLine, buildDependency, hinst]
  suffices haux : ∀ (l : List Instr) (m : DependencyMap), i ∈ l →
      ∃ s, dmapFind? (l.foldl (processInst oracle) m) i = some s ∧
        (buildDependency (oracle.getDependency i), (none : Option BlockRef)) ∈ s by
    obtain ⟨s, hs, hp⟩ := haux insts [] hmem
    exact ⟨s, hs, hp, hline⟩
  intro l
  induction l with
  | nil => intro m h; exact absurd h (List.not_mem_nil i)
  | cons j js ih =>
    intro m hmem2
    rcases List.mem_cons.mp hmem2 with rfl | hjs
    · exact present_runFold js _ (establish_local hm hl m)
    · exact ih _ hjs

/-- Witness for `c5_amended` at the concrete one-load function under the
unknown oracle. -/
theorem c5_witness :
    loadInst ∈ [loadInst] ∧
    (∃ s, dmapFind? (runOnFunction unknownOracle [loadInst]) loadInst = some s ∧
      (buildDependency (unknownOracle.getDependency loadInst),
        (none : Option BlockRef)) ∈ s ∧
      ∀ instrs2 : List Instr,
        depLine instrs2 loadInst
          (buildDependency (unknownOracle.getDependency loadInst), none) =
          some none) :=
  ⟨by decide,
   c5_amended unknownOracle [loadInst] loadInst (by decide) (by decide)
     (by decide) (by decide)⟩

end CheckMerge
